import Mathlib

/-!
Shallow embedding of the wind-tunnel data-reduction pipeline in
`dataProcess.py` (AE-160 Lab 1).

Python floats are modelled as real numbers; Python lists as `List ℝ`.
A list read `xs[i]` that can raise `IndexError` is modelled with
`List.get?`, and a computation that can raise is modelled in the
`Option` monad (`none` = the Python call raises).

Faithfulness notes, keyed to the source:
* `NA2LD` (lines 72-90): the source initialises `liftForce = [0]*n` and
  then binds `dragForce = liftForce` and `alphaRad = liftForce`, so all
  three names alias ONE list.  The loop body therefore overwrites the
  same cell three times per index, and the function returns the same
  list object twice.  The embedding keeps this aliasing: one working
  list `L`, set three times per index, returned as the pair `(L, L)`.
* `momentTransfer` (lines 92-103): `D = 71.04/1000` is hard-coded; the
  `diameters` list in `datasplit` (lines 109-115) is never read.
* The raw dynamic-pressure column is converted with `x / psf2pa`
  (division, not multiplication) both in `q2v` (line 51) and before
  `force2coeff` (lines 143-144, 157-158).
-/

namespace DataProcess

/-- Line 9: `psf2pa = 0.020885`, the constant the code divides raw
dynamic-pressure readings by. -/
noncomputable def psf2pa : ℝ := 0.020885

/-- Line 125: `lbf2N = 4.44822`. -/
noncomputable def lbf2N : ℝ := 4.44822

/-- Line 126: `inlbs2Nm = 0.1129848333`. -/
noncomputable def inlbs2Nm : ℝ := 0.1129848333

/-- `math.radians`: degrees to radians. -/
noncomputable def radians (d : ℝ) : ℝ := d * (Real.pi / 180)

/-- Lines 41-53, `q2v`: `vel[i] = sqrt((2*abs(q[i]/psf2pa)*R*T)/p)` with
`T = 296.15`, `p = 100914`, `R = 287`.  The loop writes every index of a
fresh list from the corresponding index of `q`, i.e. a map. -/
noncomputable def q2v (q : List ℝ) : List ℝ :=
  q.map fun x => Real.sqrt ((2 * |x / psf2pa| * 287 * 296.15) / 100914)

/-- One iteration of the `force2coeff` loop (lines 64-68): read `q[i]`
(may raise), guard `q[i] == 0`, else read `force[i]` and divide by
`q[i]*S` with `S = 0.01`. -/
noncomputable def force2coeffBody (force q : List ℝ) (i : ℕ) : Option (Option ℝ) := do
  let qi ← q.get? i
  if qi = 0 then
    pure none
  else do
    let fi ← force.get? i
    pure (some (fi / (qi * 0.01)))

/-- A Python `for i in ...` loop that fills one output cell per index and
propagates the first `IndexError`. -/
noncomputable def optMap {α : Type} (f : ℕ → Option α) : List ℕ → Option (List α)
  | [] => some []
  | i :: rest => do
    let x ← f i
    let xs ← optMap f rest
    pure (x :: xs)

/-- Lines 55-70, `force2coeff`: iterate `i` over `range(len(force))`. -/
noncomputable def force2coeff (force q : List ℝ) : Option (List (Option ℝ)) :=
  optMap (force2coeffBody force q) (List.range force.length)

/-- One iteration of the `NA2LD` loop body (lines 86-88) on the single
shared list `L` (see the aliasing note above): write `radians(alphaDeg[i])`
into `L[i]`, then the lift formula reading the angle back from `L[i]`,
then the drag formula reading `L[i]` again — which by now holds the lift
value, not the angle. -/
noncomputable def NA2LDbody (N A alphaDeg : List ℝ) (L : List ℝ) (i : ℕ) :
    Option (List ℝ) := do
  let ad ← alphaDeg.get? i
  let Ni ← N.get? i
  let a1 ← (L.set i (radians ad)).get? i
  let Ai ← A.get? i
  let a2 ← ((L.set i (radians ad)).set i (Ni * Real.cos a1 - Ai * Real.sin a1)).get? i
  pure (((L.set i (radians ad)).set i (Ni * Real.cos a1 - Ai * Real.sin a1)).set i
    (Ni * Real.sin a2 + Ai * Real.cos a2))

/-- The `NA2LD` loop over a list of indices. -/
noncomputable def NA2LDgo (N A alphaDeg : List ℝ) : List ℕ → List ℝ → Option (List ℝ)
  | [], L => some L
  | i :: rest, L => (NA2LDbody N A alphaDeg L i).bind (NA2LDgo N A alphaDeg rest)

/-- Lines 72-90, `NA2LD`: run the loop over `range(len(N))` starting from
`[0]*n`, and return the shared list twice (`liftForce` and `dragForce`
are the same object). -/
noncomputable def NA2LD (N A alphaDeg : List ℝ) : Option (List ℝ × List ℝ) :=
  (NA2LDgo N A alphaDeg (List.range N.length) (List.replicate N.length 0)).map
    fun L => (L, L)

/-- One iteration of the `momentTransfer` loop (line 101):
`moment[i] - (A + C)*normal[i]` with `A = 28.829/1000` and
`C = 71.04/1000 - b/1000` (lines 93-96; `D = 71.04/1000` is a fixed
constant, independent of the article). -/
noncomputable def momentTransferBody (moment normal : List ℝ) (b : ℝ) (i : ℕ) :
    Option ℝ := do
  let mi ← moment.get? i
  let ni ← normal.get? i
  pure (mi - (28.829 / 1000 + (71.04 / 1000 - b / 1000)) * ni)

/-- Lines 92-103, `momentTransfer`: iterate over `range(len(moment))`. -/
noncomputable def momentTransfer (moment normal : List ℝ) (b : ℝ) : Option (List ℝ) :=
  optMap (momentTransferBody moment normal b) (List.range moment.length)

/-- Lines 17-25, class `Data`: the per-run result bundle. -/
structure Data where
  X : List ℝ
  NF : List ℝ
  AF : List ℝ
  PM : List ℝ
  CL : List (Option ℝ)
  CD : List (Option ℝ)

/-- Lines 109-115: the per-article diameter constants.  Defined by the
source but never read by any computation. -/
noncomputable def diameters : List ℝ := [74.82, 74.82, 75.48, 75.40, 76.21]

/-- Lines 117-123: the per-article moment-arm constants `B`. -/
noncomputable def Bconst : List ℝ := [98.42, 98.42, 99.27, 127.00, 146.92]

/-- One run's raw input columns, as `datasplit` reads them from a
dataframe: `Alpha`, `q`, `NF/SF`, `AF/AF2`, `PM/YM`. -/
structure RawRun where
  Alpha : List ℝ
  q : List ℝ
  NF : List ℝ
  AF : List ℝ
  PM : List ℝ

/-- Lines 131-147 of `datasplit`: the angle-sweep run.  `NA2LD` on the
SI-converted forces and the raw angle column; coefficients from the two
returned lists against `q/psf2pa`; then the moment transfer with
`B[0]`. -/
noncomputable def datasplit0 (d : RawRun) : Option Data := do
  let lFdF ← NA2LD (d.NF.map fun x => x * lbf2N) (d.AF.map fun x => x * lbf2N) d.Alpha
  let cl ← force2coeff lFdF.1 (d.q.map fun x => x / psf2pa)
  let cd ← force2coeff lFdF.2 (d.q.map fun x => x / psf2pa)
  let rec0 : Data :=
    { X := d.Alpha
      NF := d.NF.map fun x => x * lbf2N
      AF := d.AF.map fun x => x * lbf2N
      PM := d.PM.map fun x => x * inlbs2Nm
      CL := cl
      CD := cd }
  let b0 ← Bconst.get? 0
  let pm ← momentTransfer rec0.PM rec0.NF b0
  pure { rec0 with PM := pm }

/-- Lines 151-160 of `datasplit`: a velocity-sweep run with moment arm
`b`: abscissa `q2v(q)`, no rotation, raw SI forces normalised directly,
then the moment transfer. -/
noncomputable def datasplitVel (d : RawRun) (b : ℝ) : Option Data := do
  let cl ← force2coeff (d.NF.map fun x => x * lbf2N) (d.q.map fun x => x / psf2pa)
  let cd ← force2coeff (d.AF.map fun x => x * lbf2N) (d.q.map fun x => x / psf2pa)
  let rec0 : Data :=
    { X := q2v d.q
      NF := d.NF.map fun x => x * lbf2N
      AF := d.AF.map fun x => x * lbf2N
      PM := d.PM.map fun x => x * inlbs2Nm
      CL := cl
      CD := cd }
  let pm ← momentTransfer rec0.PM rec0.NF b
  pure { rec0 with PM := pm }

/-- The `for i in range(1,n)` loop of `datasplit`: the velocity runs,
each with its `B[i]`. -/
noncomputable def datasplitRest : List RawRun → ℕ → Option (List Data)
  | [], _ => some []
  | d :: rest, i => do
    let b ← Bconst.get? i
    let r ← datasplitVel d b
    let rs ← datasplitRest rest (i + 1)
    pure (r :: rs)

/-- Lines 105-162, `datasplit`: the angle run from `data[0]` (raising if
the list is empty), then the velocity runs. -/
noncomputable def datasplit : List RawRun → Option (List Data)
  | [] => none
  | d0 :: rest => do
    let r0 ← datasplit0 d0
    let rs ← datasplitRest rest 1
    pure (r0 :: rs)

/-! ### Helper lemmas: the index loop `optMap` -/

lemma optMap_cons {α : Type} (f : ℕ → Option α) (i : ℕ) (l : List ℕ) :
    optMap f (i :: l) = (f i).bind fun x => (optMap f l).bind fun xs => some (x :: xs) :=
  rfl

lemma optMap_eq_map {α : Type} {f : ℕ → Option α} {g : ℕ → α} :
    ∀ {l : List ℕ}, (∀ i ∈ l, f i = some (g i)) → optMap f l = some (l.map g) := by
  intro l
  induction l with
  | nil => intro _; rfl
  | cons i rest ih =>
    intro h
    rw [optMap_cons, h i (List.mem_cons_self i rest),
      ih fun j hj => h j (List.mem_cons_of_mem _ hj)]
    rfl

lemma optMap_isSome {α : Type} (f : ℕ → Option α) :
    ∀ l : List ℕ, (optMap f l).isSome ↔ ∀ i ∈ l, (f i).isSome := by
  intro l
  induction l with
  | nil => simp [optMap]
  | cons i rest ih =>
    cases hfi : f i with
    | none => simp [optMap_cons, hfi]
    | some x =>
      cases hrest : optMap f rest with
      | none => simp [optMap_cons, hfi, hrest, ← ih]
      | some xs => simp [optMap_cons, hfi, hrest, ← ih]

lemma optMap_some_length {α : Type} {f : ℕ → Option α} :
    ∀ {l : List ℕ} {r : List α}, optMap f l = some r → r.length = l.length := by
  intro l
  induction l with
  | nil => intro r h; cases h; rfl
  | cons i rest ih =>
    intro r h
    cases hfi : f i with
    | none => rw [optMap_cons, hfi] at h; cases h
    | some x =>
      cases hrest : optMap f rest with
      | none => rw [optMap_cons, hfi, hrest] at h; cases h
      | some xs =>
        rw [optMap_cons, hfi, hrest] at h
        cases h
        simp [ih hrest]

lemma optMap_map_succ {α : Type} (f : ℕ → Option α) :
    ∀ l : List ℕ, optMap f (l.map Nat.succ) = optMap (fun i => f (i + 1)) l := by
  intro l
  induction l with
  | nil => rfl
  | cons i rest ih => simp only [List.map_cons, optMap_cons, Nat.succ_eq_add_one, ih]

/-! ### `momentTransfer`: closed form and success condition -/

lemma momentTransferBody_zero (x y : ℝ) (m nl : List ℝ) (b : ℝ) :
    momentTransferBody (x :: m) (y :: nl) b 0 =
      some (x - (28.829 / 1000 + (71.04 / 1000 - b / 1000)) * y) := by
  simp [momentTransferBody]

lemma momentTransferBody_succ (x y : ℝ) (m nl : List ℝ) (b : ℝ) (i : ℕ) :
    momentTransferBody (x :: m) (y :: nl) b (i + 1) = momentTransferBody m nl b i := by
  simp [momentTransferBody]

/-- Closed form of the moment transfer: with enough normal-force samples,
`new_moment = zipWith (fun x y => x - (A + D - b/1000) * y) moment normal`
with the source's fixed `A = 28.829/1000` and `D = 71.04/1000`. -/
lemma momentTransfer_eq :
    ∀ (m nl : List ℝ) (b : ℝ), m.length ≤ nl.length →
      momentTransfer m nl b =
        some (List.zipWith
          (fun x y => x - (28.829 / 1000 + (71.04 / 1000 - b / 1000)) * y) m nl) := by
  intro m
  induction m with
  | nil => intro nl b _; rfl
  | cons x m ih =>
    intro nl b h
    cases nl with
    | nil => simp at h
    | cons y nl =>
      have h' : m.length ≤ nl.length := by simpa using h
      have hfun : (fun i => momentTransferBody (x :: m) (y :: nl) b (i + 1)) =
          momentTransferBody m nl b :=
        funext fun i => momentTransferBody_succ x y m nl b i
      rw [momentTransfer, List.length_cons, List.range_succ_eq_map, optMap_cons,
        momentTransferBody_zero, optMap_map_succ, hfun, ← momentTransfer, ih nl b h']
      rfl

lemma momentTransfer_isSome (m nl : List ℝ) (b : ℝ) :
    (momentTransfer m nl b).isSome ↔ m.length ≤ nl.length := by
  rw [momentTransfer, optMap_isSome]
  constructor
  · intro h
    by_contra hlt
    push_neg at hlt
    have hmem := h nl.length (List.mem_range.mpr hlt)
    rw [momentTransferBody, List.get?_eq_get hlt] at hmem
    simp [List.get?_eq_none.mpr le_rfl] at hmem
  · intro h i hi
    rw [List.mem_range] at hi
    rw [momentTransferBody, List.get?_eq_get hi, List.get?_eq_get (lt_of_lt_of_le hi h)]
    simp

/-! ### `force2coeff`: closed form and success condition -/

lemma force2coeffBody_zero (x y : ℝ) (f q : List ℝ) :
    force2coeffBody (x :: f) (y :: q) 0 =
      some (if y = 0 then none else some (x / (y * 0.01))) := by
  by_cases hy : y = 0 <;> simp [force2coeffBody, hy]

lemma force2coeffBody_succ (x y : ℝ) (f q : List ℝ) (i : ℕ) :
    force2coeffBody (x :: f) (y :: q) (i + 1) = force2coeffBody f q i := by
  simp [force2coeffBody]

/-- Closed form of the coefficient conversion: with enough pressure
samples, the result is `zipWith` of the guarded division. -/
lemma force2coeff_eq :
    ∀ (f q : List ℝ), f.length ≤ q.length →
      force2coeff f q =
        some (List.zipWith
          (fun fi qi => if qi = 0 then none else some (fi / (qi * 0.01))) f q) := by
  intro f
  induction f with
  | nil => intro q _; rfl
  | cons x f ih =>
    intro q h
    cases q with
    | nil => simp at h
    | cons y q =>
      have h' : f.length ≤ q.length := by simpa using h
      have hfun : (fun i => force2coeffBody (x :: f) (y :: q) (i + 1)) =
          force2coeffBody f q :=
        funext fun i => force2coeffBody_succ x y f q i
      rw [force2coeff, List.length_cons, List.range_succ_eq_map, optMap_cons,
        force2coeffBody_zero, optMap_map_succ, hfun, ← force2coeff, ih q h']
      rfl

lemma force2coeff_isSome (f q : List ℝ) :
    (force2coeff f q).isSome ↔ f.length ≤ q.length := by
  rw [force2coeff, optMap_isSome]
  constructor
  · intro h
    by_contra hlt
    push_neg at hlt
    have hmem := h q.length (List.mem_range.mpr hlt)
    rw [force2coeffBody] at hmem
    simp [List.get?_eq_none.mpr le_rfl] at hmem
  · intro h i hi
    rw [List.mem_range] at hi
    rw [force2coeffBody, List.get?_eq_get (lt_of_lt_of_le hi h)]
    by_cases hq : (q.get ⟨i, lt_of_lt_of_le hi h⟩) = 0
    all_goals simp only [List.get_eq_getElem] at hq
    · simp [hq]
    · simp [hq, List.getElem?_eq_getElem hi]

/-! ### `NA2LD`: behaviour of the aliased loop -/

/-- The value the second write of iteration `i` leaves in the shared
cell `L[i]`: the intended lift formula `N[i]*cos α - A[i]*sin α`. -/
noncomputable def liftVal (N A alphaDeg : List ℝ) (i : ℕ) : ℝ :=
  N.getD i 0 * Real.cos (radians (alphaDeg.getD i 0)) -
    A.getD i 0 * Real.sin (radians (alphaDeg.getD i 0))

/-- The value iteration `i` finally leaves in the shared cell `L[i]`:
the drag formula evaluated at the lift value in place of the angle,
because the second write overwrote the stored angle. -/
noncomputable def dragVal (N A alphaDeg : List ℝ) (i : ℕ) : ℝ :=
  N.getD i 0 * Real.sin (liftVal N A alphaDeg i) +
    A.getD i 0 * Real.cos (liftVal N A alphaDeg i)

lemma NA2LDbody_eq {N A alphaDeg L : List ℝ} {i : ℕ}
    (hL : i < L.length) (hN : i < N.length) (hA : i < A.length)
    (hd : i < alphaDeg.length) :
    NA2LDbody N A alphaDeg L i = some (L.set i (dragVal N A alphaDeg i)) := by
  simp only [NA2LDbody, List.get?_eq_get hd, List.get?_eq_get hN, List.get?_eq_get hA,
    List.get?_eq_get hL, Option.bind_eq_bind, Option.pure_def, Option.some_bind,
    List.get?_set_eq, Option.map_eq_map, Option.map_some', List.set_set, dragVal,
    liftVal, List.getD_eq_getElem _ _ hN, List.getD_eq_getElem _ _ hA,
    List.getD_eq_getElem _ _ hd, List.get_eq_getElem]

lemma NA2LDbody_length {N A alphaDeg L L' : List ℝ} {i : ℕ}
    (h : NA2LDbody N A alphaDeg L i = some L') : L'.length = L.length := by
  rw [NA2LDbody] at h
  simp only [Option.bind_eq_bind, Option.pure_def] at h
  rw [Option.bind_eq_some] at h
  obtain ⟨ad, -, h⟩ := h
  rw [Option.bind_eq_some] at h
  obtain ⟨Ni, -, h⟩ := h
  rw [Option.bind_eq_some] at h
  obtain ⟨a1, -, h⟩ := h
  rw [Option.bind_eq_some] at h
  obtain ⟨Ai, -, h⟩ := h
  rw [Option.bind_eq_some] at h
  obtain ⟨a2, -, h⟩ := h
  rw [Option.some_inj] at h
  rw [← h]
  simp [List.length_set]

lemma NA2LDbody_isSome {N A alphaDeg L : List ℝ} {i : ℕ}
    (hL : i < L.length) (hN : i < N.length) :
    (NA2LDbody N A alphaDeg L i).isSome ↔ i < A.length ∧ i < alphaDeg.length := by
  constructor
  · intro h
    rw [NA2LDbody] at h
    cases hd : alphaDeg.get? i with
    | none => rw [hd] at h; simp at h
    | some ad =>
      rw [hd] at h
      refine ⟨?_, by simpa using (List.get?_eq_some.mp hd).1⟩
      cases hA : A.get? i with
      | none =>
        rw [List.get?_eq_get hN] at h
        rw [hA] at h
        simp [List.get?_set_eq, List.get?_eq_get hL] at h
      | some Ai => simpa using (List.get?_eq_some.mp hA).1
  · rintro ⟨hA, hd⟩
    rw [NA2LDbody_eq hL hN hA hd]
    rfl

/-- The cumulative effect of the loop on the single shared list: each
iteration ends by storing `dragVal` at its index. -/
noncomputable def setAll (N A alphaDeg : List ℝ) : List ℕ → List ℝ → List ℝ
  | [], L => L
  | i :: rest, L => setAll N A alphaDeg rest (L.set i (dragVal N A alphaDeg i))

lemma setAll_length (N A alphaDeg : List ℝ) :
    ∀ (l : List ℕ) (L : List ℝ), (setAll N A alphaDeg l L).length = L.length := by
  intro l
  induction l with
  | nil => intro L; rfl
  | cons i rest ih => intro L; rw [setAll, ih, List.length_set]

lemma setAll_get?_not_mem {N A alphaDeg : List ℝ} :
    ∀ {l : List ℕ} {L : List ℝ} {j : ℕ}, j ∉ l →
      (setAll N A alphaDeg l L).get? j = L.get? j := by
  intro l
  induction l with
  | nil => intro L j _; rfl
  | cons i rest ih =>
    intro L j hj
    have hne : i ≠ j := fun h => hj (by rw [← h]; exact List.mem_cons_self i rest)
    rw [setAll, ih fun h => hj (List.mem_cons_of_mem _ h), List.get?_set_ne _ _ hne]

lemma setAll_get?_mem {N A alphaDeg : List ℝ} :
    ∀ {l : List ℕ} {L : List ℝ} {j : ℕ}, j ∈ l → j < L.length →
      (setAll N A alphaDeg l L).get? j = some (dragVal N A alphaDeg j) := by
  intro l
  induction l with
  | nil => intro L j hj _; cases hj
  | cons i rest ih =>
    intro L j hj hjL
    by_cases hr : j ∈ rest
    · rw [setAll, ih hr (by rw [List.length_set]; exact hjL)]
    · have hij : j = i := by
        rcases List.mem_cons.mp hj with h | h
        · exact h
        · exact absurd h hr
      subst hij
      rw [setAll, setAll_get?_not_mem hr, List.get?_set_eq, List.get?_eq_get hjL]
      simp

lemma NA2LDgo_eq {N A alphaDeg : List ℝ} :
    ∀ {l : List ℕ} {L : List ℝ},
      (∀ i ∈ l, i < L.length ∧ i < N.length ∧ i < A.length ∧ i < alphaDeg.length) →
      NA2LDgo N A alphaDeg l L = some (setAll N A alphaDeg l L) := by
  intro l
  induction l with
  | nil => intro L _; rfl
  | cons i rest ih =>
    intro L h
    obtain ⟨hL, hN, hA, hd⟩ := h i (List.mem_cons_self i rest)
    rw [NA2LDgo, NA2LDbody_eq hL hN hA hd, Option.some_bind, setAll]
    exact ih fun j hj => by
      obtain ⟨h1, h2, h3, h4⟩ := h j (List.mem_cons_of_mem _ hj)
      exact ⟨by rw [List.length_set]; exact h1, h2, h3, h4⟩

lemma NA2LDgo_isSome {N A alphaDeg : List ℝ} :
    ∀ {l : List ℕ} {L : List ℝ},
      (∀ i ∈ l, i < L.length ∧ i < N.length) →
      ((NA2LDgo N A alphaDeg l L).isSome ↔
        ∀ i ∈ l, i < A.length ∧ i < alphaDeg.length) := by
  intro l
  induction l with
  | nil => intro L _; simp [NA2LDgo]
  | cons i rest ih =>
    intro L h
    obtain ⟨hL, hN⟩ := h i (List.mem_cons_self i rest)
    rw [NA2LDgo]
    cases hb : NA2LDbody N A alphaDeg L i with
    | none =>
      have : ¬(i < A.length ∧ i < alphaDeg.length) := by
        rw [← @NA2LDbody_isSome N A alphaDeg L i hL hN, hb]
        simp
      simp only [Option.none_bind, Option.isSome_none, Bool.false_eq_true, false_iff]
      intro hall
      exact this (hall i (List.mem_cons_self i rest))
    | some L' =>
      have hlen : L'.length = L.length := NA2LDbody_length hb
      have hAd : i < A.length ∧ i < alphaDeg.length := by
        have := @NA2LDbody_isSome N A alphaDeg L i hL hN
        rw [hb] at this
        simpa using this.mp rfl
      rw [Option.some_bind,
        ih fun j hj => by
          obtain ⟨h1, h2⟩ := h j (List.mem_cons_of_mem _ hj)
          exact ⟨hlen ▸ h1, h2⟩]
      constructor
      · intro hall j hj
        rcases List.mem_cons.mp hj with rfl | hjr
        · exact hAd
        · exact hall j hjr
      · intro hall j hj
        exact hall j (List.mem_cons_of_mem _ hj)

/-- Success value of `NA2LD`: the SAME list is returned for lift and for
drag, and its `j`-th entry is `dragVal j`. -/
lemma NA2LD_eq {N A alphaDeg : List ℝ}
    (hA : N.length ≤ A.length) (hd : N.length ≤ alphaDeg.length) :
    ∃ res : List ℝ,
      NA2LD N A alphaDeg = some (res, res) ∧ res.length = N.length ∧
      ∀ j < N.length, res.get? j = some (dragVal N A alphaDeg j) := by
  have hrep : (List.replicate N.length (0 : ℝ)).length = N.length :=
    List.length_replicate _ _
  have hgo := @NA2LDgo_eq N A alphaDeg (List.range N.length)
    (List.replicate N.length 0)
    (fun i hi => by
      rw [List.mem_range] at hi
      exact ⟨by rw [hrep]; exact hi, hi, lt_of_lt_of_le hi hA, lt_of_lt_of_le hi hd⟩)
  refine ⟨setAll N A alphaDeg (List.range N.length) (List.replicate N.length 0),
    ?_, ?_, ?_⟩
  · rw [NA2LD, hgo]; rfl
  · rw [setAll_length, hrep]
  · intro j hj
    exact setAll_get?_mem (List.mem_range.mpr hj) (by rw [hrep]; exact hj)

lemma NA2LD_isSome (N A alphaDeg : List ℝ) :
    (NA2LD N A alphaDeg).isSome ↔
      N.length ≤ A.length ∧ N.length ≤ alphaDeg.length := by
  rw [NA2LD, Option.isSome_map']
  rw [NA2LDgo_isSome fun i hi => by
    rw [List.mem_range] at hi
    exact ⟨by rw [List.length_replicate]; exact hi, hi⟩]
  constructor
  · intro h
    constructor
    · by_contra hlt
      push_neg at hlt
      exact absurd (h A.length (List.mem_range.mpr hlt)).1 (lt_irrefl _)
    · by_contra hlt
      push_neg at hlt
      exact absurd (h alphaDeg.length (List.mem_range.mpr hlt)).2 (lt_irrefl _)
  · rintro ⟨h1, h2⟩ i hi
    rw [List.mem_range] at hi
    exact ⟨lt_of_lt_of_le hi h1, lt_of_lt_of_le hi h2⟩

/-! ### Further shared helpers -/

/-- Whenever `NA2LD` succeeds, the two returned lists are the same list:
the source returns the one shared working list twice. -/
lemma NA2LD_fst_eq_snd {N A alphaDeg : List ℝ} {p : List ℝ × List ℝ}
    (hp : NA2LD N A alphaDeg = some p) : p.1 = p.2 := by
  rw [NA2LD] at hp
  obtain ⟨L, -, hL⟩ := Option.map_eq_some'.mp hp
  rw [← hL]

lemma zipWith_comp_zipWith (h g1 g0 : ℝ → ℝ → ℝ) :
    ∀ (l l' : List ℝ),
      List.zipWith h (List.zipWith g1 l l') (List.zipWith g0 l l') =
        List.zipWith (fun x y => h (g1 x y) (g0 x y)) l l' := by
  intro l
  induction l with
  | nil => intro l'; rfl
  | cons x l ih =>
    intro l'
    cases l' with
    | nil => rfl
    | cons y l' => simp [ih]

/-! ### The claims -/

/-- C1: the spec says `toLiftDrag`/`NA2LD` returns, per index,
lift = N·cos α − A·sin α and drag = N·sin α + A·cos α.  The source binds
`dragForce` and `alphaRad` to the SAME list as `liftForce`, so the drag
pass re-reads the cell that now holds the lift value and treats it as
the angle, and the function returns that one list twice.  At
N = [1], A = [0], α = [0]° the code returns `sin 1` in both positions,
while the claimed lift is `1·cos 0 − 0·sin 0 = 1` and the claimed drag
is `1·sin 0 + 0·cos 0 = 0`. -/
theorem C1_NA2LD_rotation_bug :
    NA2LD [1] [0] [0] = some ([Real.sin 1], [Real.sin 1]) ∧
    Real.sin 1 ≠ 1 * Real.cos (radians 0) - 0 * Real.sin (radians 0) ∧
    Real.sin 1 ≠ 1 * Real.sin (radians 0) + 0 * Real.cos (radians 0) := by
  refine ⟨by norm_num [NA2LD, NA2LDgo, NA2LDbody, radians, Real.cos_zero, Real.sin_zero],
    ?_, ?_⟩
  · have h1 : Real.sin 1 < 1 := by simpa using Real.sin_lt one_pos
    simp only [radians, zero_mul, Real.cos_zero, Real.sin_zero]
    intro h
    rw [h] at h1
    norm_num at h1
  · have h0 : 0 < Real.sin 1 :=
      Real.sin_pos_of_pos_of_lt_pi one_pos (by linarith [Real.pi_gt_three])
    simp only [radians, zero_mul, Real.cos_zero, Real.sin_zero]
    intro h
    rw [h] at h0
    norm_num at h0

/-- C2: the spec's round-trip property — `NA2LD` at angle 0° is the
identity (lift = normal, drag = axial).  Because of the aliasing slip
described at C1, at N = [1], A = [0], α = [0] the code returns `sin 1`
for the lift component (claimed: 1 = the normal force) and `sin 1` for
the drag component (claimed: 0 = the axial force). -/
theorem C2_zero_angle_not_identity :
    NA2LD [1] [0] [0] = some ([Real.sin 1], [Real.sin 1]) ∧
    Real.sin 1 ≠ 1 ∧ Real.sin 1 ≠ 0 := by
  refine ⟨by norm_num [NA2LD, NA2LDgo, NA2LDbody, radians, Real.cos_zero, Real.sin_zero],
    ne_of_lt (by simpa using Real.sin_lt one_pos), ?_⟩
  exact ne_of_gt (Real.sin_pos_of_pos_of_lt_pi one_pos (by linarith [Real.pi_gt_three]))

/-- C3 counterexample: the claim computes the offset with the article's
`referenceDiameter` (74.82 mm for the first run), but `momentTransfer`
hard-codes `D = 71.04/1000` and never reads the `diameters` table.  At
moment = [0], normal = [1], b = 98.42 the code's value differs from the
claim's `moment − (A + D_article − b/1000)·normal`. -/
theorem C3_fixed_diameter_counterexample :
    momentTransfer [0] [1] 98.42 =
      some [-(28.829 / 1000 + (71.04 / 1000 - 98.42 / 1000))] ∧
    diameters.get? 0 = some 74.82 ∧
    -(28.829 / 1000 + (71.04 / 1000 - 98.42 / 1000)) ≠
      (0 : ℝ) - (0.028829 + 74.82 / 1000 - 98.42 / 1000) * 1 := by
  refine ⟨by norm_num [momentTransfer, optMap, momentTransferBody], rfl, by norm_num⟩

/-- C3 amended: `result[i] = moment[i] − (A + D − b/1000)·normal[i]`
with A = 0.028829 m and the FIXED D = 0.07104 m for every article — the
per-article diameter constants are defined but never used. -/
theorem C3_momentTransfer_formula (m nl : List ℝ) (b : ℝ) (h : m.length ≤ nl.length) :
    momentTransfer m nl b =
      some (List.zipWith (fun x y => x - (0.028829 + 0.07104 - b / 1000) * y) m nl) := by
  rw [momentTransfer_eq m nl b h]
  have hc : (28.829 : ℝ) / 1000 + (71.04 / 1000 - b / 1000) =
      0.028829 + 0.07104 - b / 1000 := by ring_nf
  rw [hc]

theorem C3_momentTransfer_formula_witness :
    ([(1 : ℝ)].length ≤ [(2 : ℝ)].length) ∧
    momentTransfer [1] [2] 100 =
      some (List.zipWith
        (fun x y => x - (0.028829 + 0.07104 - (100 : ℝ) / 1000) * y) [1] [2]) :=
  ⟨by simp, C3_momentTransfer_formula [1] [2] 100 (by simp)⟩

/-- C4 counterexample: the claim says raw psf readings are converted to
Pa by MULTIPLYING by 0.020885, but the code divides by `psf2pa` — at a
raw reading of 1, the velocity the pipeline computes differs from the
velocity the claimed multiplication would give. -/
theorem C4_division_not_multiplication :
    q2v [1] = [Real.sqrt ((2 * |(1 : ℝ) / psf2pa| * 287 * 296.15) / 100914)] ∧
    Real.sqrt ((2 * |(1 : ℝ) / psf2pa| * 287 * 296.15) / 100914) ≠
      Real.sqrt ((2 * |(1 : ℝ) * 0.020885| * 287 * 296.15) / 100914) := by
  constructor
  · simp [q2v]
  · have hlt : (2 * |(1 : ℝ) * 0.020885| * 287 * 296.15) / 100914 <
        (2 * |(1 : ℝ) / psf2pa| * 287 * 296.15) / 100914 := by
      rw [psf2pa, abs_of_nonneg (by norm_num), abs_of_nonneg (by norm_num)]
      norm_num
    exact (ne_of_lt (Real.sqrt_lt_sqrt (by positivity) hlt)).symm

/-- C4 amended: wherever the pipeline converts the raw dynamic-pressure
column (the velocity abscissa in `q2v`, and the normalisation column
passed to `force2coeff` in `datasplit`), the conversion is element-wise
DIVISION by 0.020885 — equivalently multiplication by the scalar
1/0.020885 ≈ 47.88 — and it has no error cases (length is preserved). -/
theorem C4_pressure_conversion_is_division :
    (∀ q : List ℝ, q2v q = (q.map fun x => x / psf2pa).map fun y =>
      Real.sqrt ((2 * |y| * 287 * 296.15) / 100914)) ∧
    (∀ x : ℝ, x / psf2pa = x * (1 / 0.020885)) ∧
    (∀ q : List ℝ, (q.map fun x => x / psf2pa).length = q.length) := by
  refine ⟨fun q => ?_, fun x => by rw [psf2pa, div_eq_mul_one_div], fun q => by simp⟩
  rw [q2v, List.map_map]
  rfl

/-- C5: for equal-length force and dynamic-pressure sequences,
`force2coeff` succeeds and returns, per index, the missing marker
(`none`) exactly when the pressure sample is 0, and otherwise
`force[i] / (q[i]·0.01)` — the guard makes the zero-pressure branch
return the marker without ever dividing. -/
theorem C5_coefficient_guard (f q : List ℝ) (h : f.length = q.length) :
    force2coeff f q =
      some (List.zipWith
        (fun fi qi => if qi = 0 then none else some (fi / (qi * 0.01))) f q) ∧
    ∀ i, i < f.length →
      ((List.zipWith
        (fun fi qi => if qi = 0 then none else some (fi / (qi * 0.01))) f q).get? i =
          some none ↔ q.get? i = some 0) := by
  refine ⟨force2coeff_eq f q (le_of_eq h), fun i hif => ?_⟩
  have hiq : i < q.length := h ▸ hif
  rw [List.get?_zipWith, List.get?_eq_get hif, List.get?_eq_get hiq]
  by_cases hq : q.get ⟨i, hiq⟩ = 0
  · simp [hq]
  · simp only [hq, if_neg hq]
    constructor
    · intro hcontra
      simp at hcontra
    · intro hcontra
      rw [Option.some_inj] at hcontra
      exact absurd hcontra hq

theorem C5_coefficient_guard_witness :
    (([1, 5] : List ℝ).length = ([0, 2] : List ℝ).length) ∧
    (force2coeff ([1, 5] : List ℝ) ([0, 2] : List ℝ) =
      some (List.zipWith
        (fun fi qi => if qi = 0 then none else some (fi / (qi * 0.01)))
        ([1, 5] : List ℝ) ([0, 2] : List ℝ)) ∧
    ∀ i, i < ([1, 5] : List ℝ).length →
      ((List.zipWith
        (fun fi qi => if qi = 0 then none else some (fi / (qi * 0.01)))
        ([1, 5] : List ℝ) ([0, 2] : List ℝ)).get? i =
          some none ↔ (([0, 2] : List ℝ)).get? i = some 0)) :=
  ⟨by simp, C5_coefficient_guard [1, 5] [0, 2] (by simp)⟩

/-- C6: `q2v` only sees the absolute value of each dynamic-pressure
sample, so negating any (or every) sample leaves the output unchanged,
and every output is the well-defined nonnegative square root — nothing
like a NaN can arise from a negative sample. -/
theorem C6_velocity_abs_clamp :
    (∀ q : List ℝ, q2v (q.map fun x => -x) = q2v q) ∧
    (∀ q : List ℝ, ∀ v ∈ q2v q, 0 ≤ v) := by
  constructor
  · intro q
    rw [q2v, q2v, List.map_map]
    congr 1
    funext x
    simp [Function.comp, neg_div, abs_neg]
  · intro q v hv
    obtain ⟨x, -, rfl⟩ := List.mem_map.mp hv
    exact Real.sqrt_nonneg _

/-- C7: a run whose input columns all have length n produces a record
whose six sequence fields (abscissa, normal force, axial force,
pitching moment, lift coefficient, drag coefficient) all have length n,
for the angle-sweep constructor and for the velocity-sweep constructor
alike; each index is computed from the input samples at that index. -/
theorem C7_run_record_lengths (d : RawRun) (n : ℕ) (b : ℝ)
    (hA : d.Alpha.length = n) (hq : d.q.length = n) (hNF : d.NF.length = n)
    (hAF : d.AF.length = n) (hPM : d.PM.length = n) :
    (∃ r, datasplit0 d = some r ∧ r.X.length = n ∧ r.NF.length = n ∧
      r.AF.length = n ∧ r.PM.length = n ∧ r.CL.length = n ∧ r.CD.length = n) ∧
    (∃ r, datasplitVel d b = some r ∧ r.X.length = n ∧ r.NF.length = n ∧
      r.AF.length = n ∧ r.PM.length = n ∧ r.CL.length = n ∧ r.CD.length = n) := by
  have hnf : (d.NF.map fun x => x * lbf2N).length = n := by simp [hNF]
  have haf : (d.AF.map fun x => x * lbf2N).length = n := by simp [hAF]
  have hql : (d.q.map fun x => x / psf2pa).length = n := by simp [hq]
  have hpml : (d.PM.map fun x => x * inlbs2Nm).length = n := by simp [hPM]
  constructor
  · obtain ⟨res, hres, hreslen, -⟩ :=
      @NA2LD_eq (d.NF.map fun x => x * lbf2N) (d.AF.map fun x => x * lbf2N)
        d.Alpha (by rw [hnf, haf]) (by rw [hnf, hA])
    have hresn : res.length = n := by rw [hreslen, hnf]
    have hcl := force2coeff_eq res (d.q.map fun x => x / psf2pa) (by rw [hresn, hql])
    have hpm := momentTransfer_eq (d.PM.map fun x => x * inlbs2Nm)
      (d.NF.map fun x => x * lbf2N) 98.42 (by rw [hpml, hnf])
    have heq : datasplit0 d = some
        { X := d.Alpha
          NF := d.NF.map fun x => x * lbf2N
          AF := d.AF.map fun x => x * lbf2N
          PM := List.zipWith
            (fun x y => x - (28.829 / 1000 + (71.04 / 1000 - 98.42 / 1000)) * y)
            (d.PM.map fun x => x * inlbs2Nm) (d.NF.map fun x => x * lbf2N)
          CL := List.zipWith
            (fun fi qi => if qi = 0 then none else some (fi / (qi * 0.01)))
            res (d.q.map fun x => x / psf2pa)
          CD := List.zipWith
            (fun fi qi => if qi = 0 then none else some (fi / (qi * 0.01)))
            res (d.q.map fun x => x / psf2pa) } := by
      rw [datasplit0]
      simp only [Option.bind_eq_bind, hres, Option.some_bind, hcl, Bconst,
        List.get?_cons_zero, hpm, Option.pure_def]
    exact ⟨_, heq, hA, hnf, haf, by simp [List.length_zipWith, hPM, hNF, min_self],
      by simp [List.length_zipWith, hresn, hq, min_self],
      by simp [List.length_zipWith, hresn, hq, min_self]⟩
  · have hcl := force2coeff_eq (d.NF.map fun x => x * lbf2N)
      (d.q.map fun x => x / psf2pa) (by rw [hnf, hql])
    have hcd := force2coeff_eq (d.AF.map fun x => x * lbf2N)
      (d.q.map fun x => x / psf2pa) (by rw [haf, hql])
    have hpm := momentTransfer_eq (d.PM.map fun x => x * inlbs2Nm)
      (d.NF.map fun x => x * lbf2N) b (by rw [hpml, hnf])
    have heq : datasplitVel d b = some
        { X := q2v d.q
          NF := d.NF.map fun x => x * lbf2N
          AF := d.AF.map fun x => x * lbf2N
          PM := List.zipWith
            (fun x y => x - (28.829 / 1000 + (71.04 / 1000 - b / 1000)) * y)
            (d.PM.map fun x => x * inlbs2Nm) (d.NF.map fun x => x * lbf2N)
          CL := List.zipWith
            (fun fi qi => if qi = 0 then none else some (fi / (qi * 0.01)))
            (d.NF.map fun x => x * lbf2N) (d.q.map fun x => x / psf2pa)
          CD := List.zipWith
            (fun fi qi => if qi = 0 then none else some (fi / (qi * 0.01)))
            (d.AF.map fun x => x * lbf2N) (d.q.map fun x => x / psf2pa) } := by
      rw [datasplitVel]
      simp only [Option.bind_eq_bind, hcl, Option.some_bind, hcd, hpm, Option.pure_def]
    exact ⟨_, heq, by simp [q2v, hq], hnf, haf,
      by simp [List.length_zipWith, hPM, hNF, min_self],
      by simp [List.length_zipWith, hNF, hq, min_self],
      by simp [List.length_zipWith, hAF, hq, min_self]⟩

theorem C7_run_record_lengths_witness :
    (([] : List ℝ).length = 0 ∧ ([] : List ℝ).length = 0) ∧
    ((∃ r, datasplit0 ⟨[], [], [], [], []⟩ = some r ∧ r.X.length = 0 ∧
        r.NF.length = 0 ∧ r.AF.length = 0 ∧ r.PM.length = 0 ∧
        r.CL.length = 0 ∧ r.CD.length = 0) ∧
      (∃ r, datasplitVel ⟨[], [], [], [], []⟩ 99.27 = some r ∧ r.X.length = 0 ∧
        r.NF.length = 0 ∧ r.AF.length = 0 ∧ r.PM.length = 0 ∧
        r.CL.length = 0 ∧ r.CD.length = 0)) :=
  ⟨⟨rfl, rfl⟩, C7_run_record_lengths ⟨[], [], [], [], []⟩ 0 99.27 rfl rfl rfl rfl rfl⟩

/-- C8 counterexample: a run whose columns have mismatched lengths is
NOT rejected: with normal/axial of length 1 and an angle column of
length 2, `NA2LD` completes without any error, silently using only the
first angle sample. -/
theorem C8_no_length_check :
    NA2LD [0] [0] [0, 5] = some ([0], [0]) ∧
    ([0, 5] : List ℝ).length ≠ ([0] : List ℝ).length := by
  refine ⟨by norm_num [NA2LD, NA2LDgo, NA2LDbody, radians, Real.cos_zero, Real.sin_zero],
    by simp⟩

/-- C8 amended: no explicit length check exists.  A run computation
raises (an `IndexError`, modelled as `none`) exactly when a companion
column is strictly SHORTER than the driving column (the force column
for `force2coeff`, the normal-force column for `NA2LD`); a LONGER
companion column is silently truncated to the driving length, with no
error and no rejection of the run. -/
theorem C8_error_iff_shorter (N A alphaDeg f q : List ℝ) :
    ((NA2LD N A alphaDeg).isSome ↔
      N.length ≤ A.length ∧ N.length ≤ alphaDeg.length) ∧
    ((force2coeff f q).isSome ↔ f.length ≤ q.length) :=
  ⟨NA2LD_isSome N A alphaDeg, force2coeff_isSome f q⟩

/-- C9: the moment transfer is linear in the normal-force argument for
fixed moment, geometry and scale factor k:
`transfer(m, k·n) − transfer(m, 0)` equals `k · (transfer(m, n) − transfer(m, 0))`
element-wise. -/
theorem C9_moment_transfer_linear (m nl r1 r0 r : List ℝ) (b k : ℝ)
    (h1 : momentTransfer m (nl.map fun x => k * x) b = some r1)
    (h0 : momentTransfer m (nl.map fun _ => (0 : ℝ)) b = some r0)
    (hr : momentTransfer m nl b = some r) :
    List.zipWith (fun x y => x - y) r1 r0 =
      (List.zipWith (fun x y => x - y) r r0).map fun x => k * x := by
  have hlen : m.length ≤ nl.length := by
    have := (momentTransfer_isSome m (nl.map fun x => k * x) b).mp (by rw [h1]; rfl)
    simpa using this
  rw [momentTransfer_eq m _ b (by simpa using hlen), List.zipWith_map_right] at h1
  rw [momentTransfer_eq m _ b (by simpa using hlen), List.zipWith_map_right] at h0
  rw [momentTransfer_eq m nl b hlen] at hr
  rw [Option.some_inj] at h1 h0 hr
  subst h1 h0 hr
  rw [zipWith_comp_zipWith, List.map_zipWith, zipWith_comp_zipWith]
  have hfun :
      (fun x y : ℝ => x - (28.829 / 1000 + (71.04 / 1000 - b / 1000)) * (k * y) -
        (x - (28.829 / 1000 + (71.04 / 1000 - b / 1000)) * 0)) =
      fun x y : ℝ => k * (x - (28.829 / 1000 + (71.04 / 1000 - b / 1000)) * y -
        (x - (28.829 / 1000 + (71.04 / 1000 - b / 1000)) * 0)) := by
    funext x y
    ring
  rw [hfun]

theorem C9_moment_transfer_linear_witness :
    (momentTransfer [1] (([1] : List ℝ).map fun x => (2 : ℝ) * x) 0 =
      some [1 - (28.829 / 1000 + (71.04 / 1000 - 0 / 1000)) * (2 * 1)]) ∧
    (momentTransfer [1] (([1] : List ℝ).map fun _ => (0 : ℝ)) 0 =
      some [1 - (28.829 / 1000 + (71.04 / 1000 - 0 / 1000)) * 0]) ∧
    (momentTransfer [1] [1] 0 =
      some [1 - (28.829 / 1000 + (71.04 / 1000 - 0 / 1000)) * 1]) ∧
    List.zipWith (fun x y => x - y)
        [1 - (28.829 / 1000 + (71.04 / 1000 - 0 / 1000)) * (2 * 1)]
        [1 - (28.829 / 1000 + (71.04 / 1000 - 0 / 1000)) * 0] =
      (List.zipWith (fun x y => x - y)
        [1 - (28.829 / 1000 + (71.04 / 1000 - 0 / 1000)) * 1]
        [1 - (28.829 / 1000 + (71.04 / 1000 - 0 / 1000)) * 0]).map
          fun x => (2 : ℝ) * x := by
  have hw1 : momentTransfer [1] (([1] : List ℝ).map fun x => (2 : ℝ) * x) 0 =
      some [1 - (28.829 / 1000 + (71.04 / 1000 - 0 / 1000)) * (2 * 1)] := by
    norm_num [momentTransfer, optMap, momentTransferBody]
  have hw0 : momentTransfer [1] (([1] : List ℝ).map fun _ => (0 : ℝ)) 0 =
      some [1 - (28.829 / 1000 + (71.04 / 1000 - 0 / 1000)) * 0] := by
    norm_num [momentTransfer, optMap, momentTransferBody]
  have hwr : momentTransfer [1] [1] 0 =
      some [1 - (28.829 / 1000 + (71.04 / 1000 - 0 / 1000)) * 1] := by
    norm_num [momentTransfer, optMap, momentTransferBody]
  exact ⟨hw1, hw0, hwr, C9_moment_transfer_linear _ _ _ _ _ 0 2 hw1 hw0 hwr⟩

/-- C10: `NA2LD` returns one and the same list for lift and for drag
(the source returns the shared working list twice), so in the
angle-sweep record the lift- and drag-coefficient sequences are equal:
both are `force2coeff` of the same list against the same pressures. -/
theorem C10_lift_drag_identical (N A alphaDeg : List ℝ) (p : List ℝ × List ℝ)
    (d : RawRun) (r : Data)
    (hp : NA2LD N A alphaDeg = some p) (hd : datasplit0 d = some r) :
    p.1 = p.2 ∧ r.CL = r.CD := by
  refine ⟨NA2LD_fst_eq_snd hp, ?_⟩
  rw [datasplit0] at hd
  simp only [Option.bind_eq_bind, Option.pure_def] at hd
  rw [Option.bind_eq_some] at hd
  obtain ⟨lFdF, hNA, hd⟩ := hd
  rw [Option.bind_eq_some] at hd
  obtain ⟨cl, hcl, hd⟩ := hd
  rw [Option.bind_eq_some] at hd
  obtain ⟨cd, hcd, hd⟩ := hd
  rw [Option.bind_eq_some] at hd
  obtain ⟨b0, -, hd⟩ := hd
  rw [Option.bind_eq_some] at hd
  obtain ⟨pm, -, hd⟩ := hd
  rw [Option.some_inj] at hd
  rw [NA2LD_fst_eq_snd hNA] at hcl
  rw [hcl] at hcd
  rw [Option.some_inj] at hcd
  rw [← hd, hcd]

theorem C10_lift_drag_identical_witness :
    (NA2LD [0] [0] [0] = some ([0], [0])) ∧
    (datasplit0 ⟨[], [], [], [], []⟩ = some ⟨[], [], [], [], [], []⟩) ∧
    ((([0] : List ℝ), ([0] : List ℝ)).1 = (([0] : List ℝ), ([0] : List ℝ)).2 ∧
      (⟨[], [], [], [], [], []⟩ : Data).CL = (⟨[], [], [], [], [], []⟩ : Data).CD) := by
  have h1 : NA2LD [0] [0] [0] = some ([0], [0]) := by
    norm_num [NA2LD, NA2LDgo, NA2LDbody, radians, Real.cos_zero, Real.sin_zero]
  have h2 : datasplit0 ⟨[], [], [], [], []⟩ = some ⟨[], [], [], [], [], []⟩ := by
    norm_num [datasplit0, NA2LD, NA2LDgo, force2coeff, optMap, momentTransfer, Bconst]
  exact ⟨h1, h2, C10_lift_drag_identical _ _ _ _ _ _ h1 h2⟩

end DataProcess
